import Mathlib

attribute [local semireducible] Rat.mul Rat.add Rat.sub Rat.inv

/-!
# Verification of the single-slot transcode job coordinator

Shallow embedding of `src/transcode.py`: the job coordinator (`start_job`,
`get_status`, `get_previous`), the frame-count prober
(`get_video_duration_frames`), the encode plan builder (the ffmpeg argument
construction in `run_transcode`), and the progress-supervision loop.

Python strings are Lean `String`s, Python `int` is `Int`, Python `float` is
modelled exactly by `ℚ` (the arithmetic the code performs on probe values is
exact on the inputs of interest; IEEE rounding is not modelled), dictionaries
holding the job state are structures, and the two module-level globals
`CURRENT_JOB` / `PREVIOUS_JOB` form the `ServerState`. Every mutation the
background thread performs under `JOB_LOCK` is one state transformation here.
-/

/-! ## String helpers modelling the Python primitives used by the code -/

/-- Model of Python `str.strip()` with no argument: remove leading and
trailing whitespace. (Python also strips `\x0b`/`\x0c` and Unicode spaces;
those never occur in the ffmpeg progress stream.) -/
def pyStrip (s : String) : String :=
  ⟨((s.data.dropWhile Char.isWhitespace).reverse.dropWhile Char.isWhitespace).reverse⟩

/-- Model of Python `str.rstrip()`: remove trailing whitespace. -/
def pyRstrip (s : String) : String :=
  ⟨(s.data.reverse.dropWhile Char.isWhitespace).reverse⟩

/-- Model of Python `str.strip(c)` for a one-character argument: remove every
leading and trailing occurrence of `c`. -/
def pyStripChar (c : Char) (s : String) : String :=
  ⟨((s.data.dropWhile (fun x => x = c)).reverse.dropWhile (fun x => x = c)).reverse⟩

/-- `start_job` trims surrounding quote characters:
`input_path.strip("\x27").strip(\x22)` (single quotes first, then double). -/
def stripQuotes (s : String) : String :=
  pyStripChar (Char.ofNat 34) (pyStripChar (Char.ofNat 39) s)

/-- Model of Python `str.lower()` (ASCII range; the language tags and
extensions compared by the code are ASCII). -/
def lowerStr (s : String) : String :=
  ⟨s.data.map Char.toLower⟩

/-- Model of Python `c in s` for a character. -/
def containsChar (s : String) (c : Char) : Bool :=
  s.data.contains c

/-- Model of Python `line.split("=", 1)` restricted to the case the code
uses: `none` when the line has no `=`, otherwise the pieces before and after
the first `=`. -/
def splitFirstEq (s : String) : Option (String × String) :=
  let pre := s.data.takeWhile (fun c => c ≠ '=')
  if pre.length = s.data.length then none
  else some (⟨pre⟩, ⟨s.data.drop (pre.length + 1)⟩)

/-- Decimal value of a digit list (most significant first). -/
def digitsVal (l : List Char) : Nat :=
  l.foldl (fun a c => a * 10 + (c.toNat - 48)) 0

/-- A non-empty all-digit list parses; anything else does not. -/
def parseDigits (l : List Char) : Option Nat :=
  if l ≠ [] ∧ l.all Char.isDigit then some (digitsVal l) else none

/-- Model of Python `int(value)` on decimal strings: optional surrounding
whitespace, an optional single sign, then digits. (Underscored literals such
as `1_0`, accepted by CPython, never occur in ffprobe/ffmpeg output and are
not modelled.) -/
def pyInt? (s : String) : Option Int :=
  match (pyStrip s).data with
  | [] => none
  | c :: rest =>
    if c = '-' then (parseDigits rest).map (fun n => -(n : Int))
    else if c = '+' then (parseDigits rest).map (fun n => (n : Int))
    else (parseDigits (c :: rest)).map (fun n => (n : Int))

/-- Unsigned decimal literal with an optional fractional part, as an exact
rational. -/
def parseUnsignedFloat (l : List Char) : Option ℚ :=
  let intPart := l.takeWhile Char.isDigit
  let rest := l.drop intPart.length
  match rest with
  | [] => if intPart = [] then none else some ((digitsVal intPart : ℚ))
  | c :: rest2 =>
    if c = '.' then
      let fracPart := rest2.takeWhile Char.isDigit
      let rest3 := rest2.drop fracPart.length
      if rest3 ≠ [] then none
      else if intPart = [] ∧ fracPart = [] then none
      else some ((digitsVal intPart : ℚ) + (digitsVal fracPart : ℚ) / (10 : ℚ) ^ fracPart.length)
    else none

/-- Model of Python `float(value)` on plain decimal literals: optional
surrounding whitespace, optional sign, digits with an optional fractional
part, valued exactly in `ℚ`. (Exponent/`inf`/`nan` forms, accepted by
CPython, never occur in the ffmpeg progress stream and are not modelled.) -/
def pyFloat? (s : String) : Option ℚ :=
  match (pyStrip s).data with
  | [] => none
  | c :: rest =>
    if c = '-' then (parseUnsignedFloat rest).map (fun q => -q)
    else if c = '+' then parseUnsignedFloat rest
    else parseUnsignedFloat (c :: rest)

/-- Model of Python `int(x)` on a float value: truncation toward zero. -/
def pyTrunc (q : ℚ) : Int :=
  if q < 0 then -Int.floor (-q) else Int.floor q

/-- Model of CPython `posixpath.splitext` on a character list: the extension
starts at the last dot that lies after the last path separator, provided at
least one non-dot character stands between the separator and that dot
(leading dots of the final component, as in `.bashrc`, start no extension). -/
def splitextChars (l : List Char) : List Char × List Char :=
  let r := l.reverse
  let pre := r.takeWhile (fun c => c ≠ '.')
  if pre.length = r.length then (l, [])
  else
    let rest := r.drop (pre.length + 1)
    if pre.contains '/' then (l, [])
    else if (rest.takeWhile (fun c => c ≠ '/')).any (fun c => c ≠ '.') then
      (rest.reverse, '.' :: pre.reverse)
    else (l, [])

/-- Model of Python `os.path.splitext` (POSIX). -/
def splitext (p : String) : String × String :=
  let be := splitextChars p.data
  (⟨be.1⟩, ⟨be.2⟩)

/-- Model of Python `str(s)` inside a list repr (the command lists the code
formats contain no quote characters, so escaping is not modelled). -/
def pyStrRepr (s : String) : String :=
  (Char.ofNat 39).toString ++ s ++ (Char.ofNat 39).toString

/-- Model of Python `str(list_of_strings)`. -/
def pyListRepr (l : List String) : String :=
  "[" ++ String.intercalate ", " (l.map pyStrRepr) ++ "]"

/-! ## Data model -/

/-- The active Job: the `CURRENT_JOB` dictionary installed by `start_job`. -/
structure Job where
  input : String
  output : String
  status : String
  fps : ℚ
  frames_processed : Int
  total_frames : Int
deriving Repr, DecidableEq

/-- The previous-result record: the `PREVIOUS_JOB` dictionary written at a
terminal outcome. The success record carries no `error` key (`none`). -/
structure PrevJob where
  input : String
  output : String
  status : String
  error : Option String
  timestamp : ℚ
deriving Repr, DecidableEq

/-- The two module-level globals guarded by `JOB_LOCK`. -/
structure ServerState where
  current : Option Job
  previous : Option PrevJob
deriving Repr, DecidableEq

/-- JSON scalar values appearing in the HTTP responses. -/
inductive JVal where
  | s (v : String)
  | q (v : ℚ)
  | b (v : Bool)
  | i (v : Int)
deriving Repr, DecidableEq

/-- An HTTPException: status code and detail string. -/
structure HttpError where
  code : Nat
  detail : String
deriving Repr, DecidableEq

/-- One entry of the broad-probe stream list consumed by the plan builder:
`index`, `codec_type`, `codec_name` (absent key modelled as `none`) and
`tags.language` (absent tag modelled as `none`). -/
structure MediaStream where
  index : Int
  codec_type : String
  codec_name : Option String
  language : Option String
deriving Repr, DecidableEq

/-- One entry of the narrow-probe stream list consumed by
`get_video_duration_frames`; ffprobe JSON renders the fields as strings,
an absent key is `none`. -/
structure ProbeStream where
  duration : Option String
  nb_frames : Option String
  r_frame_rate : Option String
deriving Repr, DecidableEq

/-- Outcome of the narrow ffprobe invocation: `failure` covers a missing
executable, a non-zero exit (`check=True` raises) and malformed JSON — all
caught by the bare `except` — and `ok streams` is the parsed stream list. -/
inductive ProbeResult where
  | failure
  | ok (streams : List ProbeStream)
deriving Repr, DecidableEq

/-! ## Job Coordinator -/

/-- `start_job(input_path, output_path)`: strip quotes, reject empty
parameters (400), reject a missing input file (400, checked against the
file-system oracle `fsExists`), reject when the slot is occupied (409,
under `JOB_LOCK`), otherwise install the new Job in state `starting` and
reply 202 `Transcoding started` (the background thread is spawned as a side
effect). Returns the resulting global state and the HTTP reply. -/
def start_job (fsExists : String → Bool) (st : ServerState)
    (inputRaw outputRaw : String) : ServerState × Except HttpError String :=
  let input_path := stripQuotes inputRaw
  let output_path := stripQuotes outputRaw
  if input_path = "" ∨ output_path = "" then
    (st, Except.error ⟨400, "Missing input or output parameters"⟩)
  else if fsExists input_path = false then
    (st, Except.error ⟨400, "Input file not found: " ++ input_path⟩)
  else
    match st.current with
    | some _ => (st, Except.error ⟨409, "Server is busy with another transcoding request"⟩)
    | none =>
      ({ st with current := some ⟨input_path, output_path, "starting", 0, 0, 0⟩ },
       Except.ok "Transcoding started")

/-- `get_status()`: snapshot of the active slot under `JOB_LOCK`. -/
def get_status (st : ServerState) : List (String × JVal) :=
  match st.current with
  | some j =>
    [("busy", JVal.b true), ("input", JVal.s j.input), ("output", JVal.s j.output),
     ("fps", JVal.q j.fps), ("frames_processed", JVal.i j.frames_processed),
     ("total_frames", JVal.i j.total_frames), ("status", JVal.s j.status)]
  | none => [("busy", JVal.b false), ("status", JVal.s "idle")]

/-- JSON shape of a previous-result record; the `error` key is present only
on failure records, matching the two dict literals in `run_transcode`. -/
def prevToJson (p : PrevJob) : List (String × JVal) :=
  [("input", JVal.s p.input), ("output", JVal.s p.output), ("status", JVal.s p.status)] ++
    (match p.error with
     | some e => [("error", JVal.s e)]
     | none => []) ++
    [("timestamp", JVal.q p.timestamp)]

/-- `get_previous()`: the last terminal record, or the two-field sentinel. -/
def get_previous (st : ServerState) : List (String × JVal) :=
  match st.previous with
  | some p => prevToJson p
  | none => [("status", JVal.s "none"), ("message", JVal.s "No previous jobs recorded")]

/-! ## Background task: guarded state mutations

Each `with JOB_LOCK: if CURRENT_JOB: ...` block of `run_transcode` is one of
the following transformations; when the slot is empty they leave the state
untouched. -/

/-- `CURRENT_JOB["status"] = stat` under the lock, guarded by `if CURRENT_JOB`. -/
def setStatus (st : ServerState) (stat : String) : ServerState :=
  match st.current with
  | some j => { st with current := some { j with status := stat } }
  | none => st

/-- `CURRENT_JOB["output"] = outp` under the lock, guarded by `if CURRENT_JOB`. -/
def setOutput (st : ServerState) (outp : String) : ServerState :=
  match st.current with
  | some j => { st with current := some { j with output := outp } }
  | none => st

/-- `CURRENT_JOB["total_frames"] = tf` under the lock, guarded by `if CURRENT_JOB`. -/
def setTotalFrames (st : ServerState) (tf : Int) : ServerState :=
  match st.current with
  | some j => { st with current := some { j with total_frames := tf } }
  | none => st

/-! ## Output-path normalization (step 0 of `run_transcode`) -/

/-- The corrected output path: `base + ".mkv"` when the splitext extension,
lowered, is not `.mkv`; unchanged otherwise. -/
def enforceMkv (output_path : String) : String :=
  let be := splitext output_path
  if lowerStr be.2 = ".mkv" then output_path else be.1 ++ ".mkv"

/-- The full normalization step: computes the corrected path and, when a
correction was needed, writes it into the active Job under the lock. Returns
the new state and the (local-variable) output path used from then on. -/
def applyOutputFix (st : ServerState) (output_path : String) : ServerState × String :=
  let be := splitext output_path
  if lowerStr be.2 = ".mkv" then (st, output_path)
  else (setOutput st (be.1 ++ ".mkv"), be.1 ++ ".mkv")

/-! ## Media Prober (`get_video_duration_frames`) -/

/-- Duration extraction: `stream.get("duration")`, used only when truthy
(present and non-empty); `float(...)` with `ValueError` degrading to `0.0`. -/
def durationOf (s : ProbeStream) : ℚ :=
  match s.duration with
  | some d =>
    if d = "" then 0
    else
      match pyFloat? d with
      | some q => q
      | none => 0
  | none => 0

/-- Direct frame count: `stream.get("nb_frames")`, used only when truthy;
`int(...)` with `ValueError` leaving the count at `0`. -/
def nbTotal (s : ProbeStream) : Int :=
  match s.nb_frames with
  | some nf =>
    if nf = "" then 0
    else
      match pyInt? nf with
      | some n => n
      | none => 0
  | none => 0

/-- `num, den = map(int, r_frame_rate.split("/"))`: succeeds exactly when
the split yields two pieces and both parse as integers (any other shape
raises `ValueError`, caught by the code). -/
def parseSlashPair (s : String) : Option (Int × Int) :=
  match (s.data.splitOn '/').map (fun l => (⟨l⟩ : String)) with
  | [a, b] =>
    match pyInt? a, pyInt? b with
    | some x, some y => some (x, y)
    | _, _ => none
  | _ => none

/-- The duration-times-rate fallback: requires a `/` in `r_frame_rate`
(default `""`), a parsed `num/den`, and `den > 0`; the result is
`int(duration_sec * (num / den))`, i.e. truncation toward zero of the exact
product. Every failure leaves the total at `0`. -/
def rateTotal (s : ProbeStream) (duration_sec : ℚ) : Int :=
  let r_frame_rate := s.r_frame_rate.getD ""
  if containsChar r_frame_rate '/' then
    match parseSlashPair r_frame_rate with
    | some nd => if 0 < nd.2 then pyTrunc (duration_sec * ((nd.1 : ℚ) / (nd.2 : ℚ))) else 0
    | none => 0
  else 0

/-- `get_video_duration_frames(input_path) -> (duration_seconds, total_frames)`:
any probe failure and an empty stream list both give `(0, 0)`; otherwise the
first stream's direct count is taken when non-zero, and the duration-times-rate
fallback runs only when the count is still `0` and the duration is positive. -/
def get_video_duration_frames (r : ProbeResult) : ℚ × Int :=
  match r with
  | ProbeResult.failure => (0, 0)
  | ProbeResult.ok [] => (0, 0)
  | ProbeResult.ok (s :: _) =>
    let duration_sec := durationOf s
    let total1 := nbTotal s
    let total := if total1 = 0 ∧ 0 < duration_sec then rateTotal s duration_sec else total1
    (duration_sec, total)

/-! ## Encode Plan Builder (ffmpeg command construction) -/

/-- `tags.get("language", "").lower() in ["eng", "en", "english"]`. -/
def isEnglishTag (s : MediaStream) : Bool :=
  (["eng", "en", "english"] : List String).contains (lowerStr (s.language.getD ""))

/-- The `for stream in audio_streams: ... break` scan: index of the first
English-tagged stream. -/
def firstEnglishIndex : List MediaStream → Option Int
  | [] => none
  | s :: rest => if isEnglishTag s then some s.index else firstEnglishIndex rest

/-- `english_audio_index` as computed over the full stream list. -/
def english_audio_index (streams : List MediaStream) : Option Int :=
  firstEnglishIndex (streams.filter (fun s => s.codec_type = "audio"))

/-- Audio mapping arguments: the selected English stream, else all audio
streams generically when any exist, else nothing. -/
def audioMapArgs (streams : List MediaStream) : List String :=
  match english_audio_index streams with
  | some i => ["-map", "0:" ++ toString i]
  | none =>
    if streams.filter (fun s => s.codec_type = "audio") ≠ [] then ["-map", "0:a"]
    else []

/-- Subtitle mapping arguments: when subtitle streams exist, map them all and
re-encode to `srt` when any has codec `mov_text`, else copy; no subtitle
streams yields no arguments. -/
def subtitleMapArgs (streams : List MediaStream) : List String :=
  let subs := streams.filter (fun s => s.codec_type = "subtitle")
  if subs ≠ [] then
    if subs.any (fun s => s.codec_name == some "mov_text") then
      ["-map", "0:s", "-c:s", "srt"]
    else
      ["-map", "0:s", "-c:s", "copy"]
  else []

/-- The fixed leading ffmpeg arguments. -/
def baseArgs (input_path : String) : List String :=
  ["ffmpeg", "-y", "-i", input_path, "-map_metadata", "0", "-map", "0:v:0",
   "-progress", "-", "-nostats"]

/-- The fixed trailing encode-parameter arguments. -/
def tailArgs (output_path : String) : List String :=
  ["-c:v", "libx265", "-preset", "slow", "-tag:v", "hvc1", "-pix_fmt", "yuv420p10le",
   "-vf", "scale=-2:1080", "-c:a", "aac", "-b:a", "192k", "-ac", "2", output_path]

/-- The complete ffmpeg command `run_transcode` assembles. -/
def buildFfmpegCmd (input_path output_path : String) (streams : List MediaStream) :
    List String :=
  baseArgs input_path ++ audioMapArgs streams ++ subtitleMapArgs streams ++
    tailArgs output_path

/-! ## Process Supervisor: the progress loop -/

/-- One iteration of the progress-reading loop on a line already read:
strip it, skip it when empty or without `=`, else split on the first `=`,
strip key and value, and under the lock (when the slot is occupied) store a
parsed `frame` / `fps` value or signal the break on `progress=end`. The
returned Bool is the break signal. -/
def progressStep (st : ServerState) (rawLine : String) : ServerState × Bool :=
  let line := pyStrip rawLine
  if line = "" then (st, false)
  else
    match splitFirstEq line with
    | none => (st, false)
    | some kv =>
      let key := pyStrip kv.1
      let value := pyStrip kv.2
      match st.current with
      | none => (st, false)
      | some j =>
        if key = "frame" then
          match pyInt? value with
          | some n => ({ st with current := some { j with frames_processed := n } }, false)
          | none => (st, false)
        else if key = "fps" then
          match pyFloat? value with
          | some q => ({ st with current := some { j with fps := q } }, false)
          | none => (st, false)
        else if key = "progress" then (st, value == "end")
        else (st, false)

/-- The whole progress loop over the finite line sequence the encoder emits:
returns the final state and the lines left unconsumed (non-empty exactly when
the loop broke at a `progress=end` line). -/
def processProgress : ServerState → List String → ServerState × List String
  | st, [] => (st, [])
  | st, line :: rest =>
    let p := progressStep st line
    if p.2 then (p.1, rest) else processProgress p.1 rest

/-- The sequence of states the loop publishes: the state before any line,
then the state after each executed iteration. -/
def progressTrace : ServerState → List String → List ServerState
  | st, [] => [st]
  | st, line :: rest =>
    let p := progressStep st line
    if p.2 then [st, p.1] else st :: progressTrace p.1 rest

/-- The `frames_processed` value a status reader sees (0 when idle). -/
def jobFrames (st : ServerState) : Int :=
  match st.current with
  | some j => j.frames_processed
  | none => 0

/-- The frame value a line would store: the line parses as `frame=<int>`
after stripping. Mirrors exactly the condition under which `progressStep`
updates `frames_processed`. -/
def frameValue? (rawLine : String) : Option Int :=
  match splitFirstEq (pyStrip rawLine) with
  | some kv => if pyStrip kv.1 = "frame" then pyInt? (pyStrip kv.2) else none
  | none => none

/-! ## Process Supervisor: termination and the terminal handoff -/

/-- Model of `str(subprocess.CalledProcessError(returncode, cmd))` for a
normally exited process (`returncode ≥ 0`; negative signal-kill codes do not
arise from a process that exits with a code). -/
def calledProcessErrorMsg (cmd : List String) (returncode : Nat) : String :=
  "Command " ++ pyStrRepr (pyListRepr cmd) ++ " returned non-zero exit status " ++
    toString returncode ++ "."

/-- The terminal record written under `JOB_LOCK`: `failed` with the raised
exception's text on a non-zero exit, `success` (no error key) on zero. -/
def finalRecord (input_path output_path : String) (cmd : List String)
    (returncode : Nat) (now : ℚ) : PrevJob :=
  if returncode ≠ 0 then
    ⟨input_path, output_path, "failed", some (calledProcessErrorMsg cmd returncode), now⟩
  else
    ⟨input_path, output_path, "success", none, now⟩

/-- The atomic active-to-previous handoff: one `with JOB_LOCK` block sets
`PREVIOUS_JOB` and clears `CURRENT_JOB` together. -/
def finalizeJob (st : ServerState) (input_path output_path : String)
    (cmd : List String) (returncode : Nat) (now : ℚ) : ServerState :=
  { st with current := none,
            previous := some (finalRecord input_path output_path cmd returncode now) }

/-- The `stderr_reader` thread: every non-empty diagnostic line is logged as
`FFmpeg: <line.rstrip()>`; nothing else is retained. -/
def stderrLog (diagnostics : List String) : List String :=
  (diagnostics.filter (fun l => l ≠ "")).map (fun l => "FFmpeg: " ++ pyRstrip l)

/-- The supervision tail of `run_transcode` after `Popen`: the stderr thread
drains `diagnostics` into the log, the progress loop consumes
`progressLines`, `process.wait()` yields `returncode`, and the terminal
handoff runs. Returns the final global state and the diagnostic log. -/
def superviseEncoder (st : ServerState) (input_path output_path : String)
    (cmd : List String) (progressLines diagnostics : List String)
    (returncode : Nat) (now : ℚ) : ServerState × List String :=
  let st1 := (processProgress st progressLines).1
  (finalizeJob st1 input_path output_path cmd returncode now, stderrLog diagnostics)

/-! ## Helper lemmas -/

/-- String append acts as list append on the underlying characters. -/
theorem strAppendData (a b : String) : (a ++ b).data = a.data ++ b.data := by
  cases a
  cases b
  rfl

/-- The exception message recorded on a non-zero exit is never empty. -/
theorem calledProcessErrorMsg_ne_empty (cmd : List String) (code : Nat) :
    calledProcessErrorMsg cmd code ≠ "" := by
  intro h
  have h2 : (calledProcessErrorMsg cmd code).data = [] := congrArg String.data h
  rw [calledProcessErrorMsg, strAppendData] at h2
  have h3 := (List.append_eq_nil.mp h2).2
  exact absurd h3 (by decide)

/-- With an empty active slot, one progress-loop iteration changes nothing
and never signals the break. -/
theorem progressStep_empty_slot (prev : Option PrevJob) (line : String) :
    progressStep ⟨none, prev⟩ line = (⟨none, prev⟩, false) := by
  unfold progressStep
  repeat' split <;> simp_all

/-- With an empty active slot, the whole progress loop changes nothing (and,
never seeing the guarded break, consumes every line). -/
theorem processProgress_empty_slot (prev : Option PrevJob) (lines : List String) :
    processProgress ⟨none, prev⟩ lines = (⟨none, prev⟩, []) := by
  induction lines with
  | nil => rfl
  | cons line rest ih =>
    simp [processProgress, progressStep_empty_slot, ih]

/-- Truncation toward zero agrees with floor on nonnegative rationals. -/
theorem pyTrunc_nonneg (q : ℚ) (h : 0 ≤ q) : pyTrunc q = Int.floor q := by
  unfold pyTrunc
  rw [if_neg (not_lt.mpr h)]

/-- The English-audio scan is the first English-tagged element of the list. -/
theorem firstEnglishIndex_eq (l : List MediaStream) :
    firstEnglishIndex l = (l.find? isEnglishTag).map (fun s => s.index) := by
  induction l with
  | nil => rfl
  | cons s rest ih =>
    by_cases h : isEnglishTag s
    · simp [firstEnglishIndex, h, List.find?_cons_of_pos]
    · simp [firstEnglishIndex, h, List.find?_cons_of_neg, ih]

/-! ## Claims -/

/-- C1 (counterexample): a submit call made while a Job occupies the active
slot does not always fail with Busy/409 — with an argument that is empty
after quote trimming the parameter check fires first and the call fails with
400, contradicting the claim's universal quantification over submit calls. -/
theorem c1_counterexample :
    (⟨some ⟨"a", "b", "transcoding", 0, 0, 0⟩, none⟩ : ServerState).current ≠ none ∧
    (start_job (fun _ => true) ⟨some ⟨"a", "b", "transcoding", 0, 0, 0⟩, none⟩
        "\"\"" "out").2 =
      Except.error ⟨400, "Missing input or output parameters"⟩ ∧
    (400 : Nat) ≠ 409 := by
  refine ⟨by decide, rfl, by decide⟩

/-- C1 (amended): while a Job occupies the active slot, every submit call
fails without installing a new Job and without altering any field of the
active Job (the state is returned unchanged); the error is Busy/409 exactly
when the request passes the parameter and input-existence checks that run
first, and whenever any of those checks fails the error is instead an
InvalidRequest error with HTTP code 400. -/
theorem c1_submit_busy_amended (fsExists : String → Bool) (st : ServerState)
    (inp outp : String) (j : Job) (hbusy : st.current = some j) :
    (start_job fsExists st inp outp).1 = st ∧
    (∃ e, (start_job fsExists st inp outp).2 = Except.error e) ∧
    (stripQuotes inp ≠ "" → stripQuotes outp ≠ "" →
      fsExists (stripQuotes inp) = true →
      (start_job fsExists st inp outp).2 =
        Except.error ⟨409, "Server is busy with another transcoding request"⟩) ∧
    (¬(stripQuotes inp ≠ "" ∧ stripQuotes outp ≠ "" ∧
        fsExists (stripQuotes inp) = true) →
      ∃ e, (start_job fsExists st inp outp).2 = Except.error e ∧ e.code = 400) := by
  simp only [start_job, hbusy]
  split_ifs with h1 h2
  · refine ⟨rfl, ⟨_, rfl⟩, fun hne1 hne2 _ => absurd h1 (by tauto), ?_⟩
    exact fun _ => ⟨⟨400, "Missing input or output parameters"⟩, rfl, rfl⟩
  · refine ⟨rfl, ⟨_, rfl⟩, fun _ _ hfs => absurd h2 (by simp [hfs]), ?_⟩
    exact fun _ => ⟨⟨400, "Input file not found: " ++ stripQuotes inp⟩, rfl, rfl⟩
  · refine ⟨rfl, ⟨_, rfl⟩, fun _ _ _ => rfl, fun hn => absurd ⟨?_, ?_, ?_⟩ hn⟩
    · exact fun he => h1 (Or.inl he)
    · exact fun he => h1 (Or.inr he)
    · cases hfe : fsExists (stripQuotes inp) with
      | false => exact absurd hfe h2
      | true => rfl

/-- C1 (witness): a well-formed submit against a busy coordinator leaves the
state unchanged and yields the 409 Busy error; a failed validation check
would instead yield a 400 error. -/
theorem c1_submit_busy_witness :
    (start_job (fun _ => true) ⟨some ⟨"a", "b", "transcoding", 0, 0, 0⟩, none⟩
        "in.mkv" "out.mkv").1 = ⟨some ⟨"a", "b", "transcoding", 0, 0, 0⟩, none⟩ ∧
    (∃ e, (start_job (fun _ => true) ⟨some ⟨"a", "b", "transcoding", 0, 0, 0⟩, none⟩
        "in.mkv" "out.mkv").2 = Except.error e) ∧
    (stripQuotes "in.mkv" ≠ "" → stripQuotes "out.mkv" ≠ "" →
      (fun _ : String => true) (stripQuotes "in.mkv") = true →
      (start_job (fun _ => true) ⟨some ⟨"a", "b", "transcoding", 0, 0, 0⟩, none⟩
          "in.mkv" "out.mkv").2 =
        Except.error ⟨409, "Server is busy with another transcoding request"⟩) ∧
    (¬(stripQuotes "in.mkv" ≠ "" ∧ stripQuotes "out.mkv" ≠ "" ∧
        (fun _ : String => true) (stripQuotes "in.mkv") = true) →
      ∃ e, (start_job (fun _ => true) ⟨some ⟨"a", "b", "transcoding", 0, 0, 0⟩, none⟩
          "in.mkv" "out.mkv").2 = Except.error e ∧ e.code = 400) :=
  c1_submit_busy_amended (fun _ => true) ⟨some ⟨"a", "b", "transcoding", 0, 0, 0⟩, none⟩
    "in.mkv" "out.mkv" ⟨"a", "b", "transcoding", 0, 0, 0⟩ rfl

/-- C2 (counterexample): the error detail recorded on a non-zero exit does
not consist of the encoder's diagnostic text — at a concrete failing run
whose diagnostic channel carried `boom`, the recorded detail is not `boom`,
and the final state is entirely independent of the diagnostic text (the
stderr thread only logs it). -/
theorem c2_counterexample :
    ((superviseEncoder ⟨some ⟨"a.mkv", "b.mkv", "transcoding", 0, 0, 0⟩, none⟩ "a.mkv"
        "b.mkv" ["ffmpeg"] [] ["boom"] 1 0).1.previous.bind PrevJob.error ≠ some "boom") ∧
    ((superviseEncoder ⟨some ⟨"a.mkv", "b.mkv", "transcoding", 0, 0, 0⟩, none⟩ "a.mkv"
        "b.mkv" ["ffmpeg"] [] ["boom"] 1 0).1 =
      (superviseEncoder ⟨some ⟨"a.mkv", "b.mkv", "transcoding", 0, 0, 0⟩, none⟩ "a.mkv"
        "b.mkv" ["ffmpeg"] [] ["disk full"] 1 0).1) := by
  exact ⟨by decide, rfl⟩

/-- C2 (amended): a non-zero encoder exit yields outcome `failed` with a
non-empty error detail — the supervisor's exception message naming the
command and exit status (the encoder's diagnostics are only logged) — and in
the same protected step the slot is cleared (status() reports busy = false)
and the Previous Result with input, output, outcome, detail and timestamp is
installed; a zero exit likewise clears the slot and records `success`. -/
theorem c2_nonzero_exit_amended (st : ServerState) (inp outp : String)
    (cmd : List String) (plines diags : List String) (code : Nat) (now : ℚ) :
    (code ≠ 0 →
      (superviseEncoder st inp outp cmd plines diags code now).1.current = none ∧
      (superviseEncoder st inp outp cmd plines diags code now).1.previous =
        some ⟨inp, outp, "failed", some (calledProcessErrorMsg cmd code), now⟩ ∧
      calledProcessErrorMsg cmd code ≠ "" ∧
      get_status (superviseEncoder st inp outp cmd plines diags code now).1 =
        [("busy", JVal.b false), ("status", JVal.s "idle")]) ∧
    (code = 0 →
      (superviseEncoder st inp outp cmd plines diags code now).1.current = none ∧
      (superviseEncoder st inp outp cmd plines diags code now).1.previous =
        some ⟨inp, outp, "success", none, now⟩ ∧
      get_status (superviseEncoder st inp outp cmd plines diags code now).1 =
        [("busy", JVal.b false), ("status", JVal.s "idle")]) := by
  constructor
  · intro h
    exact ⟨rfl, by simp [superviseEncoder, finalizeJob, finalRecord, h],
      calledProcessErrorMsg_ne_empty cmd code, rfl⟩
  · intro h
    subst h
    exact ⟨rfl, by simp [superviseEncoder, finalizeJob, finalRecord], rfl⟩

/-- C2 (witness): a concrete run exiting with code 1 clears the slot and
records the failed outcome with the non-empty exception message. -/
theorem c2_nonzero_exit_witness :
    (superviseEncoder ⟨some ⟨"a", "b", "transcoding", 0, 0, 0⟩, none⟩ "a" "b" ["ffmpeg"]
        [] [] 1 0).1.current = none ∧
    (superviseEncoder ⟨some ⟨"a", "b", "transcoding", 0, 0, 0⟩, none⟩ "a" "b" ["ffmpeg"]
        [] [] 1 0).1.previous =
      some ⟨"a", "b", "failed", some (calledProcessErrorMsg ["ffmpeg"] 1), 0⟩ ∧
    calledProcessErrorMsg ["ffmpeg"] 1 ≠ "" ∧
    get_status (superviseEncoder ⟨some ⟨"a", "b", "transcoding", 0, 0, 0⟩, none⟩ "a" "b"
        ["ffmpeg"] [] [] 1 0).1 = [("busy", JVal.b false), ("status", JVal.s "idle")] :=
  (c2_nonzero_exit_amended ⟨some ⟨"a", "b", "transcoding", 0, 0, 0⟩, none⟩ "a" "b"
    ["ffmpeg"] [] [] 1 0).1 (by decide)

/-- C4 (counterexample): a present, integer-parseable direct frame count is
not always used as-is — a direct count of `0` parses to the integer 0, yet
the code falls through to the duration-times-rate computation and returns
300 instead of 0. -/
theorem c4_counterexample :
    (⟨some "10.0", some "0", some "30/1"⟩ : ProbeStream).nb_frames = some "0" ∧
    pyInt? "0" = some 0 ∧
    (get_video_duration_frames
      (ProbeResult.ok [⟨some "10.0", some "0", some "30/1"⟩])).2 = 300 ∧
    (300 : Int) ≠ 0 := by
  decide

/-- C4 (amended): a present, integer-parseable and *non-zero* direct count is
used as-is regardless of duration and rate; when the count is absent,
unparseable or zero, a positive parsed duration together with a rational
rate `num/den` (positive denominator, nonnegative numerator) yields
`floor(duration * num/den)`; a non-positive duration or a rate without `/`
yields 0; and every probe failure or empty stream list yields `(0, 0)`. -/
theorem c4_probe_priority_amended (s : ProbeStream) (rest : List ProbeStream) :
    (∀ n : Int, nbTotal s = n → n ≠ 0 →
      (get_video_duration_frames (ProbeResult.ok (s :: rest))).2 = n) ∧
    (∀ num den : Int, nbTotal s = 0 → 0 < durationOf s →
      containsChar (s.r_frame_rate.getD "") '/' = true →
      parseSlashPair (s.r_frame_rate.getD "") = some (num, den) →
      0 < den → 0 ≤ num →
      (get_video_duration_frames (ProbeResult.ok (s :: rest))).2 =
        Int.floor (durationOf s * ((num : ℚ) / (den : ℚ)))) ∧
    (nbTotal s = 0 → durationOf s ≤ 0 →
      (get_video_duration_frames (ProbeResult.ok (s :: rest))).2 = 0) ∧
    (nbTotal s = 0 → containsChar (s.r_frame_rate.getD "") '/' = false →
      (get_video_duration_frames (ProbeResult.ok (s :: rest))).2 = 0) ∧
    get_video_duration_frames ProbeResult.failure = (0, 0) ∧
    get_video_duration_frames (ProbeResult.ok []) = (0, 0) := by
  refine ⟨?_, ?_, ?_, ?_, rfl, rfl⟩
  · intro n hn hne
    simp [get_video_duration_frames, hn, hne]
  · intro num den h0 hd hc hp hden hnum
    have hq : (0 : ℚ) ≤ durationOf s * ((num : ℚ) / (den : ℚ)) := by
      apply mul_nonneg (le_of_lt hd)
      apply div_nonneg
      · exact_mod_cast hnum
      · exact_mod_cast le_of_lt hden
    simp [get_video_duration_frames, h0, hd, rateTotal, hc, hp, hden,
      pyTrunc_nonneg _ hq]
  · intro h0 hd
    simp [get_video_duration_frames, h0, not_lt.mpr hd]
  · intro h0 hc
    by_cases hd : 0 < durationOf s
    · simp [get_video_duration_frames, h0, hd, rateTotal, hc]
    · simp [get_video_duration_frames, h0, hd]

/-- C4 (witness): with no direct count, duration `10.0` and rate `30/1`, the
total is `floor(10 * 30/1)`, i.e. 300, matching the spec's example. -/
theorem c4_probe_priority_witness :
    (get_video_duration_frames
      (ProbeResult.ok [⟨some "10.0", none, some "30/1"⟩])).2 =
      Int.floor (durationOf ⟨some "10.0", none, some "30/1"⟩ * ((30 : ℚ) / (1 : ℚ))) ∧
    Int.floor (durationOf (⟨some "10.0", none, some "30/1"⟩ : ProbeStream) *
      ((30 : ℚ) / (1 : ℚ))) = 300 :=
  ⟨(c4_probe_priority_amended ⟨some "10.0", none, some "30/1"⟩ []).2.1 30 1 (by decide)
    (by decide) (by decide) (by decide) (by decide) (by decide), by decide⟩

/-- C9 (counterexample): before any job has completed, `previous()` does not
return exactly the one-field sentinel — the record it returns carries a
second `message` field. -/
theorem c9_counterexample :
    get_previous ⟨none, none⟩ ≠ [("status", JVal.s "none")] := by
  decide

/-- C9 (amended): before any completion `previous()` returns the two-field
sentinel `{status: "none", message: "No previous jobs recorded"}`; once a
previous record exists it is returned as stored, and after any terminal
outcome the response is exactly the record that outcome installed. -/
theorem c9_previous_amended (st : ServerState) :
    (st.previous = none →
      get_previous st =
        [("status", JVal.s "none"), ("message", JVal.s "No previous jobs recorded")]) ∧
    (∀ p, st.previous = some p → get_previous st = prevToJson p) ∧
    (∀ inp outp cmd plines diags code now,
      get_previous ((superviseEncoder st inp outp cmd plines diags code now).1) =
        prevToJson (finalRecord inp outp cmd code now)) := by
  refine ⟨fun h => by simp [get_previous, h], fun p h => by simp [get_previous, h], ?_⟩
  intro inp outp cmd plines diags code now
  simp [superviseEncoder, finalizeJob, get_previous]

/-- C9 (witness): a stored success record is returned as-is, and the fresh
state's sentinel carries both fields. -/
theorem c9_previous_witness :
    get_previous ⟨none, some ⟨"a", "b", "success", none, 5⟩⟩ =
      prevToJson ⟨"a", "b", "success", none, 5⟩ :=
  (c9_previous_amended ⟨none, some ⟨"a", "b", "success", none, 5⟩⟩).2.1
    ⟨"a", "b", "success", none, 5⟩ rfl

/-- C10: every guarded mutation the background task performs — the status
transitions, the output-path correction, the total-frames write, and every
progress-line update — first checks the active slot and is a total no-op on
an empty slot (the progress loop moreover never signals its guarded break
there, so it consumes all lines while changing nothing). -/
theorem c10_cleared_slot_noop (prev : Option PrevJob) (stat outp : String)
    (tf : Int) (p : String) (lines : List String) :
    setStatus ⟨none, prev⟩ stat = ⟨none, prev⟩ ∧
    setOutput ⟨none, prev⟩ outp = ⟨none, prev⟩ ∧
    setTotalFrames ⟨none, prev⟩ tf = ⟨none, prev⟩ ∧
    (applyOutputFix ⟨none, prev⟩ p).1 = ⟨none, prev⟩ ∧
    processProgress ⟨none, prev⟩ lines = (⟨none, prev⟩, []) := by
  refine ⟨rfl, rfl, rfl, ?_, processProgress_empty_slot prev lines⟩
  simp only [applyOutputFix]
  split
  · rfl
  · rfl

/-- C3: progress-channel parsing. Each line is split on its first `=` with
key and value stripped; an integer-parseable `frame` value is stored as
`frames_processed` and a float-parseable `fps` value as `fps`; a recognized
key with an unparsable value leaves the stored state unchanged; a
`progress=end` line ends the loop at once, leaving the remaining lines
unconsumed; and the spec's concrete sequence `frame=120`, `fps=23.8`,
`frame=abc`, `progress=end` ends with 120 frames and fps 23.8 (= 119/5). -/
theorem c3_progress_parsing (prev : Option PrevJob) (j : Job) :
    (∀ line k v n, splitFirstEq (pyStrip line) = some (k, v) → pyStrip k = "frame" →
      pyInt? (pyStrip v) = some n →
      progressStep ⟨some j, prev⟩ line =
        (⟨some { j with frames_processed := n }, prev⟩, false)) ∧
    (∀ line k v, splitFirstEq (pyStrip line) = some (k, v) → pyStrip k = "frame" →
      pyInt? (pyStrip v) = none →
      progressStep ⟨some j, prev⟩ line = (⟨some j, prev⟩, false)) ∧
    (∀ line k v q, splitFirstEq (pyStrip line) = some (k, v) → pyStrip k = "fps" →
      pyFloat? (pyStrip v) = some q →
      progressStep ⟨some j, prev⟩ line = (⟨some { j with fps := q }, prev⟩, false)) ∧
    (∀ line k v, splitFirstEq (pyStrip line) = some (k, v) → pyStrip k = "fps" →
      pyFloat? (pyStrip v) = none →
      progressStep ⟨some j, prev⟩ line = (⟨some j, prev⟩, false)) ∧
    (∀ line k v rest, splitFirstEq (pyStrip line) = some (k, v) →
      pyStrip k = "progress" → pyStrip v = "end" →
      processProgress ⟨some j, prev⟩ (line :: rest) = (⟨some j, prev⟩, rest)) ∧
    (processProgress ⟨some j, prev⟩ ["frame=120", "fps=23.8", "frame=abc", "progress=end"] =
      (⟨some { j with frames_processed := 120, fps := 119/5 }, prev⟩, [])) := by
  have hne : ∀ line k v, splitFirstEq (pyStrip line) = some (k, v) →
      ¬pyStrip line = "" := by
    intro line k v hsplit he
    rw [he] at hsplit
    exact Option.noConfusion hsplit
  refine ⟨?_, ?_, ?_, ?_, ?_, ?_⟩
  · intro line k v n hsplit hk hn
    simp [progressStep, hne line k v hsplit, hsplit, hk, hn]
  · intro line k v hsplit hk hn
    simp [progressStep, hne line k v hsplit, hsplit, hk, hn]
  · intro line k v q hsplit hk hq
    simp [progressStep, hne line k v hsplit, hsplit, hk, hq]
  · intro line k v hsplit hk hq
    simp [progressStep, hne line k v hsplit, hsplit, hk, hq]
  · intro line k v rest hsplit hk hv
    simp [processProgress, progressStep, hne line k v hsplit, hsplit, hk, hv]
  · rfl

/-- C3 (witness): a `frame=7` line stores 7 frames without breaking. -/
theorem c3_progress_parsing_witness :
    progressStep ⟨some ⟨"a", "b", "transcoding", 0, 0, 0⟩, none⟩ "frame=7" =
      (⟨some ⟨"a", "b", "transcoding", 0, 7, 0⟩, none⟩, false) :=
  (c3_progress_parsing none ⟨"a", "b", "transcoding", 0, 0, 0⟩).1 "frame=7" "frame" "7" 7
    rfl rfl rfl

/-- C5: audio selection. The scan picks exactly the first audio stream (in
original order) whose language tag matches `eng`/`en`/`english`
case-insensitively; with no match but at least one audio stream the generic
`-map 0:a` is emitted; with no audio streams no audio mapping is emitted;
and the audio arguments appear verbatim inside the assembled command. -/
theorem c5_audio_selection (streams : List MediaStream) (inp outp : String) :
    (english_audio_index streams =
      ((streams.filter (fun s => s.codec_type = "audio")).find? isEnglishTag).map
        (fun s => s.index)) ∧
    (∀ s0, (streams.filter (fun s => s.codec_type = "audio")).find? isEnglishTag =
        some s0 →
      audioMapArgs streams = ["-map", "0:" ++ toString s0.index]) ∧
    ((streams.filter (fun s => s.codec_type = "audio")).find? isEnglishTag = none →
      streams.filter (fun s => s.codec_type = "audio") ≠ [] →
      audioMapArgs streams = ["-map", "0:a"]) ∧
    (streams.filter (fun s => s.codec_type = "audio") = [] →
      audioMapArgs streams = []) ∧
    (∃ pre post, buildFfmpegCmd inp outp streams = pre ++ audioMapArgs streams ++ post) := by
  refine ⟨firstEnglishIndex_eq _, ?_, ?_, ?_,
    ⟨baseArgs inp, subtitleMapArgs streams ++ tailArgs outp, by
      simp [buildFfmpegCmd, List.append_assoc]⟩⟩
  · intro s0 h
    simp [audioMapArgs, english_audio_index, firstEnglishIndex_eq, h]
  · intro h hne
    simp [audioMapArgs, english_audio_index, firstEnglishIndex_eq, h, hne]
  · intro h
    simp [audioMapArgs, english_audio_index, firstEnglishIndex_eq, h]

/-- C5 (witness): with streams tagged `fr` then `EN`, the `EN` stream (index
1) is selected, matching the spec's example and the case-insensitive
comparison. -/
theorem c5_audio_selection_witness :
    audioMapArgs [⟨0, "audio", none, some "fr"⟩, ⟨1, "audio", none, some "EN"⟩] =
      ["-map", "0:" ++ toString (1 : Int)] :=
  (c5_audio_selection [⟨0, "audio", none, some "fr"⟩, ⟨1, "audio", none, some "EN"⟩]
    "in.mkv" "out.mkv").2.1 ⟨1, "audio", none, some "EN"⟩ (by decide)

/-- C6: subtitle policy. When subtitle streams exist they are all mapped
(`-map 0:s`), re-encoded to `srt` when any of them has codec `mov_text` and
copied otherwise — the choice is uniform over all subtitle streams; with no
subtitle streams no subtitle arguments are emitted; and the subtitle
arguments appear verbatim inside the assembled command. -/
theorem c6_subtitle_policy (streams : List MediaStream) (inp outp : String) :
    ((streams.filter (fun s => s.codec_type = "subtitle")).any
        (fun s => s.codec_name == some "mov_text") = true →
      streams.filter (fun s => s.codec_type = "subtitle") ≠ [] →
      subtitleMapArgs streams = ["-map", "0:s", "-c:s", "srt"]) ∧
    ((streams.filter (fun s => s.codec_type = "subtitle")).any
        (fun s => s.codec_name == some "mov_text") = false →
      streams.filter (fun s => s.codec_type = "subtitle") ≠ [] →
      subtitleMapArgs streams = ["-map", "0:s", "-c:s", "copy"]) ∧
    (streams.filter (fun s => s.codec_type = "subtitle") = [] →
      subtitleMapArgs streams = []) ∧
    (∃ pre post, buildFfmpegCmd inp outp streams =
      pre ++ subtitleMapArgs streams ++ post) := by
  refine ⟨?_, ?_, ?_,
    ⟨baseArgs inp ++ audioMapArgs streams, tailArgs outp, by
      simp [buildFfmpegCmd, List.append_assoc]⟩⟩
  · intro ha hsub
    simp [subtitleMapArgs, hsub, ha]
  · intro ha hsub
    simp [subtitleMapArgs, hsub, ha]
  · intro h
    simp [subtitleMapArgs, h]

/-- C6 (witness): one `mov_text` stream among three subtitle streams forces
the uniform `srt` re-encoding of all of them. -/
theorem c6_subtitle_policy_witness :
    subtitleMapArgs [⟨0, "subtitle", some "mov_text", none⟩,
      ⟨1, "subtitle", some "subrip", none⟩, ⟨2, "subtitle", some "ass", none⟩] =
      ["-map", "0:s", "-c:s", "srt"] :=
  (c6_subtitle_policy [⟨0, "subtitle", some "mov_text", none⟩,
    ⟨1, "subtitle", some "subrip", none⟩, ⟨2, "subtitle", some "ass", none⟩]
    "in.mkv" "out.mkv").1 (by decide) (by decide)

/-- The final path component (after the last `/`) contains at least one
character other than a dot. -/
def lastComponentHasNonDot (p : String) : Bool :=
  (p.data.reverse.takeWhile (fun c => c ≠ '/')).any (fun c => c ≠ '.')

/-- Appending `.mkv` to a name whose final component has a non-dot character
gives a path that splitext divides exactly at the appended dot. -/
theorem splitextChars_append_mkv (l : List Char)
    (h : (l.reverse.takeWhile (fun c => c ≠ '/')).any (fun c => c ≠ '.') = true) :
    splitextChars (l ++ ['.', 'm', 'k', 'v']) = (l, ['.', 'm', 'k', 'v']) := by
  have hrev : (l ++ ['.', 'm', 'k', 'v']).reverse = 'v' :: 'k' :: 'm' :: '.' :: l.reverse := by
    simp
  simp only [splitextChars, hrev]
  have htw : ('v' :: 'k' :: 'm' :: '.' :: l.reverse).takeWhile (fun c => c ≠ '.') =
      ['v', 'k', 'm'] := rfl
  rw [htw]
  rw [if_neg (by simp only [List.length_cons, List.length_nil]; omega)]
  have hdrop : ('v' :: 'k' :: 'm' :: '.' :: l.reverse).drop (['v', 'k', 'm'].length + 1) =
      l.reverse := rfl
  rw [hdrop]
  rw [if_neg (by decide)]
  rw [if_pos h]
  simp

/-- The base splitext returns keeps the non-dot property of the final
component. -/
theorem splitextChars_base_nondot (l : List Char)
    (h : (l.reverse.takeWhile (fun c => c ≠ '/')).any (fun c => c ≠ '.') = true) :
    ((splitextChars l).1.reverse.takeWhile (fun c => c ≠ '/')).any
      (fun c => c ≠ '.') = true := by
  simp only [splitextChars]
  split
  · exact h
  · split
    · exact h
    · split
      · next hcond => simpa using hcond
      · exact h

/-- C7 (counterexample): normalization does not always yield a path whose
extension is the archival one — the output path `..` (non-empty, so accepted
by submit) becomes `...mkv`, to which `os.path.splitext` assigns no
extension at all. -/
theorem c7_counterexample :
    enforceMkv ".." = "...mkv" ∧
    lowerStr (splitext (enforceMkv "..")).2 ≠ ".mkv" := by
  exact ⟨rfl, by decide⟩

/-- C7 (amended): for every output path whose final component contains at
least one non-dot character — which covers correct, uppercase, wrong and
missing extensions on any ordinary file name — the corrected path's splitext
extension is exactly `.mkv` up to case; the correction the background task
uses is exactly `enforceMkv`; and when the slot holds the job whose recorded
output is being corrected, the recorded output equals the corrected path
immediately after the update, so later status reads see it. (For a
degenerate all-dots component such as `..` the `.mkv` suffix is still
appended but splitext assigns the result no extension.) -/
theorem c7_extension_amended (p : String) (st : ServerState) (j : Job)
    (h : lastComponentHasNonDot p = true) :
    lowerStr (splitext (enforceMkv p)).2 = ".mkv" ∧
    (applyOutputFix st p).2 = enforceMkv p ∧
    (st.current = some j → j.output = p →
      ((applyOutputFix st p).1).current = some { j with output := enforceMkv p }) := by
  refine ⟨?_, ?_, ?_⟩
  · by_cases hc : lowerStr (splitext p).2 = ".mkv"
    · have he : enforceMkv p = p := by simp [enforceMkv, hc]
      rw [he]
      exact hc
    · have he : enforceMkv p = (splitext p).1 ++ ".mkv" := by simp [enforceMkv, hc]
      rw [he]
      have hdata : ((splitext p).1 ++ ".mkv").data =
          (splitextChars p.data).1 ++ ['.', 'm', 'k', 'v'] := by
        rw [strAppendData]
        rfl
      have hbase := splitextChars_base_nondot p.data h
      have hkey := splitextChars_append_mkv (splitextChars p.data).1 hbase
      show lowerStr ⟨(splitextChars ((splitext p).1 ++ ".mkv").data).2⟩ = ".mkv"
      rw [hdata, hkey]
      rfl
  · by_cases hc : lowerStr (splitext p).2 = ".mkv"
    · simp [applyOutputFix, enforceMkv, hc]
    · simp [applyOutputFix, enforceMkv, hc]
  · intro hcur hout
    by_cases hc : lowerStr (splitext p).2 = ".mkv"
    · simp only [applyOutputFix, enforceMkv, if_pos hc, hcur]
      rw [← hout]
    · simp only [applyOutputFix, enforceMkv, if_neg hc, setOutput, hcur]

/-- C7 (witness): a wrong-extension path `video.mp4` is corrected to a path
with extension `.mkv` and the job's recorded output is updated. -/
theorem c7_extension_witness :
    lowerStr (splitext (enforceMkv "video.mp4")).2 = ".mkv" ∧
    (applyOutputFix ⟨some ⟨"in.mkv", "video.mp4", "analyzing", 0, 0, 0⟩, none⟩
        "video.mp4").2 = enforceMkv "video.mp4" ∧
    ((⟨some ⟨"in.mkv", "video.mp4", "analyzing", 0, 0, 0⟩, none⟩ : ServerState).current =
        some ⟨"in.mkv", "video.mp4", "analyzing", 0, 0, 0⟩ →
      (⟨"in.mkv", "video.mp4", "analyzing", 0, 0, 0⟩ : Job).output = "video.mp4" →
      ((applyOutputFix ⟨some ⟨"in.mkv", "video.mp4", "analyzing", 0, 0, 0⟩, none⟩
          "video.mp4").1).current =
        some { (⟨"in.mkv", "video.mp4", "analyzing", 0, 0, 0⟩ : Job) with
          output := enforceMkv "video.mp4" }) :=
  c7_extension_amended "video.mp4"
    ⟨some ⟨"in.mkv", "video.mp4", "analyzing", 0, 0, 0⟩, none⟩
    ⟨"in.mkv", "video.mp4", "analyzing", 0, 0, 0⟩ (by decide)

/-- A progress-loop iteration never installs or clears the active slot. -/
theorem progressStep_isSome (st : ServerState) (line : String) :
    ((progressStep st line).1).current.isSome = st.current.isSome := by
  by_cases h0 : pyStrip line = ""
  · simp [progressStep, h0]
  · cases hsp : splitFirstEq (pyStrip line) with
    | none => simp [progressStep, h0, hsp]
    | some kv =>
      cases hcur : st.current with
      | none => simp [progressStep, h0, hsp, hcur]
      | some j =>
        by_cases hk : pyStrip kv.1 = "frame"
        · cases hn : pyInt? (pyStrip kv.2) with
          | none => simp [progressStep, h0, hsp, hcur, hk, hn]
          | some n => simp [progressStep, h0, hsp, hcur, hk, hn]
        · by_cases hf : pyStrip kv.1 = "fps"
          · cases hq : pyFloat? (pyStrip kv.2) with
            | none => simp [progressStep, h0, hsp, hcur, hk, hf, hq]
            | some q => simp [progressStep, h0, hsp, hcur, hk, hf, hq]
          · by_cases hp : pyStrip kv.1 = "progress"
            · simp [progressStep, h0, hsp, hcur, hk, hf, hp]
            · simp [progressStep, h0, hsp, hcur, hk, hf, hp]

/-- When an iteration signals the break (`progress=end`), it leaves the
state untouched. -/
theorem progressStep_break (st : ServerState) (line : String) :
    (progressStep st line).2 = true → (progressStep st line).1 = st := by
  by_cases h0 : pyStrip line = ""
  · simp [progressStep, h0]
  · cases hsp : splitFirstEq (pyStrip line) with
    | none => simp [progressStep, h0, hsp]
    | some kv =>
      cases hcur : st.current with
      | none => simp [progressStep, h0, hsp, hcur]
      | some j =>
        by_cases hk : pyStrip kv.1 = "frame"
        · cases hn : pyInt? (pyStrip kv.2) with
          | none => simp [progressStep, h0, hsp, hcur, hk, hn]
          | some n => simp [progressStep, h0, hsp, hcur, hk, hn]
        · by_cases hf : pyStrip kv.1 = "fps"
          · cases hq : pyFloat? (pyStrip kv.2) with
            | none => simp [progressStep, h0, hsp, hcur, hk, hf, hq]
            | some q => simp [progressStep, h0, hsp, hcur, hk, hf, hq]
          · by_cases hp : pyStrip kv.1 = "progress"
            · simp [progressStep, h0, hsp, hcur, hk, hf, hp]
            · simp [progressStep, h0, hsp, hcur, hk, hf, hp]

/-- A line that does not parse as `frame=<int>` leaves the stored frame
count unchanged. -/
theorem progressStep_frames_none (st : ServerState) (line : String)
    (h : frameValue? line = none) :
    jobFrames (progressStep st line).1 = jobFrames st := by
  by_cases h0 : pyStrip line = ""
  · simp [progressStep, h0]
  · cases hsp : splitFirstEq (pyStrip line) with
    | none => simp [progressStep, h0, hsp]
    | some kv =>
      unfold frameValue? at h
      simp only [hsp] at h
      cases hcur : st.current with
      | none => simp [progressStep, h0, hsp, hcur]
      | some j =>
        by_cases hk : pyStrip kv.1 = "frame"
        · rw [if_pos hk] at h
          simp [progressStep, h0, hsp, hcur, hk, h]
        · by_cases hf : pyStrip kv.1 = "fps"
          · cases hq : pyFloat? (pyStrip kv.2) with
            | none => simp [progressStep, h0, hsp, hcur, hk, hf, hq]
            | some q => simp [progressStep, h0, hsp, hcur, hk, hf, hq, jobFrames]
          · by_cases hp : pyStrip kv.1 = "progress"
            · simp [progressStep, h0, hsp, hcur, hk, hf, hp]
            · simp [progressStep, h0, hsp, hcur, hk, hf, hp]

/-- With the slot occupied, a line parsing as `frame=n` stores exactly `n`
(whatever was stored before, larger or smaller) and does not break. -/
theorem progressStep_frames_some (st : ServerState) (line : String) (n : Int)
    (hocc : st.current.isSome = true) (h : frameValue? line = some n) :
    jobFrames (progressStep st line).1 = n ∧ (progressStep st line).2 = false := by
  obtain ⟨j, hcur⟩ := Option.isSome_iff_exists.mp hocc
  by_cases h0 : pyStrip line = ""
  · unfold frameValue? at h
    rw [h0] at h
    rw [show splitFirstEq "" = (none : Option (String × String)) from rfl] at h
    exact absurd h (by simp)
  · cases hsp : splitFirstEq (pyStrip line) with
    | none =>
      unfold frameValue? at h
      simp only [hsp] at h
      exact absurd h (by simp)
    | some kv =>
      unfold frameValue? at h
      simp only [hsp] at h
      by_cases hk : pyStrip kv.1 = "frame"
      · rw [if_pos hk] at h
        simp [progressStep, h0, hsp, hcur, hk, h, jobFrames]
      · rw [if_neg hk] at h
        exact absurd h (by simp)

/-- The published trace always starts at the initial state. -/
theorem progressTrace_cons (st : ServerState) (lines : List String) :
    ∃ t, progressTrace st lines = st :: t := by
  cases lines with
  | nil => exact ⟨[], rfl⟩
  | cons line rest =>
    simp only [progressTrace]
    by_cases hb : (progressStep st line).2 = true
    · exact ⟨[(progressStep st line).1], by simp [hb]⟩
    · exact ⟨progressTrace (progressStep st line).1 rest, by simp [hb]⟩

/-- C8 (counterexample): the stored `frames_processed` is not monotone for
every update sequence — the code assigns whatever integer the encoder
emits, so the lines `frame=120`, `frame=50` publish the decreasing trace
0, 120, 50. -/
theorem c8_counterexample :
    (progressTrace ⟨some ⟨"a", "b", "transcoding", 0, 0, 0⟩, none⟩
        ["frame=120", "frame=50"]).map jobFrames = [0, 120, 50] ∧
    ¬ List.Chain' (fun a b : Int => a ≤ b) [0, 120, 50] := by
  constructor
  · rfl
  · intro hch
    exact absurd (List.chain'_cons.mp (List.chain'_cons.mp hch).2).1 (by decide)

/-- C8 (amended): `frames_processed` always holds the most recently parsed
frame value; the published sequence of stored values is monotonically
non-decreasing provided the frame values the encoder emits are themselves
non-decreasing (starting from the currently stored value), which is how
ffmpeg behaves — the code itself performs no clamping. -/
theorem c8_frames_monotone_amended (st : ServerState) (lines : List String)
    (hocc : st.current.isSome = true)
    (h : List.Chain' (fun a b : Int => a ≤ b)
      (jobFrames st :: lines.filterMap frameValue?)) :
    List.Chain' (fun a b : Int => a ≤ b) ((progressTrace st lines).map jobFrames) := by
  induction lines generalizing st with
  | nil => simp [progressTrace]
  | cons line rest ih =>
    have hocc2 : ((progressStep st line).1).current.isSome = true := by
      rw [progressStep_isSome]
      exact hocc
    simp only [progressTrace]
    by_cases hb : (progressStep st line).2 = true
    · rw [if_pos hb, progressStep_break st line hb]
      simp
    · rw [if_neg hb]
      cases hfv : frameValue? line with
      | none =>
        have hfr := progressStep_frames_none st line hfv
        rw [List.filterMap_cons_none hfv] at h
        have hrec := ih (progressStep st line).1 hocc2 (by rw [hfr]; exact h)
        obtain ⟨t, ht⟩ := progressTrace_cons (progressStep st line).1 rest
        rw [ht] at hrec ⊢
        rw [List.map_cons, List.map_cons]
        rw [List.map_cons] at hrec
        exact List.chain'_cons.mpr ⟨by rw [hfr], hrec⟩
      | some n =>
        obtain ⟨hfr, _⟩ := progressStep_frames_some st line n hocc hfv
        rw [List.filterMap_cons_some hfv] at h
        have h1 := (List.chain'_cons.mp h).1
        have h2 := (List.chain'_cons.mp h).2
        have hrec := ih (progressStep st line).1 hocc2 (by rw [hfr]; exact h2)
        obtain ⟨t, ht⟩ := progressTrace_cons (progressStep st line).1 rest
        rw [ht] at hrec ⊢
        rw [List.map_cons, List.map_cons]
        rw [List.map_cons] at hrec
        exact List.chain'_cons.mpr ⟨by rw [hfr]; exact h1, hrec⟩

/-- C8 (witness): a non-decreasing emitted sequence publishes a
non-decreasing stored trace. -/
theorem c8_frames_monotone_witness :
    List.Chain' (fun a b : Int => a ≤ b)
      ((progressTrace ⟨some ⟨"a", "b", "transcoding", 0, 0, 0⟩, none⟩
        ["frame=80", "frame=120", "progress=end"]).map jobFrames) :=
  c8_frames_monotone_amended ⟨some ⟨"a", "b", "transcoding", 0, 0, 0⟩, none⟩
    ["frame=80", "frame=120", "progress=end"] rfl
    (by
      show List.Chain' (fun a b : Int => a ≤ b) [0, 80, 120]
      refine List.chain'_cons.mpr ⟨by omega, List.chain'_cons.mpr ⟨by omega, ?_⟩⟩
      simp)
